import Mathlib

/-! SecondaryStream (src/core/secondary_stream.cpp)

A shallow embedding of the out-of-band frame relay:

* the frame slot and the throttle gate (`pushFrame`, `ready`, the take step of
  the delivery loop) as pure functions on the members they touch;
* the lifecycle operations `stop` and `start` as functions on the service
  state (running flag, worker handle);
* the worker `run()` together with the threads that call `stop()`, `start()`
  and `pushFrame()` as a labelled step function on a system state: one label
  per statement that touches shared state or the operating system, the
  outcome of each system call being carried by the label.

Times are `steady_clock` readings in nanoseconds (the `count()` of the
time point) as integers, differences of two readings being within the range
of the 64-bit representation; the default-constructed time point has count
`0`. The byte received as rate is the value of the `char` it is stored in.
There is one lifecycle owner calling `start()` and `stop()`, and one
producer.
-/

namespace SecondaryStream

/-! ## Frame slot and throttle -/

/-- A `libcamera::Span<uint8_t>`: the address and the length of a byte view. -/
structure Span where
  data : Nat
  size : Nat
deriving DecidableEq, Repr

/-- The members read and written by `pushFrame` and `ready`:
`latest_frame`, `last_frame_send` (nanosecond count of the time point)
and `output_fps`. -/
structure Slot where
  latest_frame : Option Span
  last_frame_send : Int
  output_fps : Int
deriving DecidableEq, Repr

/-- The slot of a freshly constructed object: no frame, the time point at its
epoch; `output_fps` has no initialiser in the class, its value is whatever
`fps` the memory holds. -/
def Slot.fresh (fps : Int) : Slot :=
  { latest_frame := none, last_frame_send := 0, output_fps := fps }

/-- Lines 191-200, the critical section of `pushFrame`: store the span and
the current clock reading `now`. -/
def pushFrame (s : Slot) (span : Span) (now : Int) : Slot :=
  { s with latest_frame := some span, last_frame_send := now }

/-- Lines 139-142: `if (latest_frame)` move the span out and reset the slot.
Returns the span taken (if any) and the slot afterwards. -/
def takeFrame (s : Slot) : Option Span × Slot :=
  match s.latest_frame with
  | some span => (some span, { s with latest_frame := none })
  | none => (none, s)

/-- C++ integer division `a / b`: undefined for `b = 0` (modelled as `none`),
otherwise the quotient truncated towards zero. -/
def cdiv (a b : Int) : Option Int :=
  if b = 0 then none else some (Int.tdiv a b)

/-- The value of `duration_cast<milliseconds>(now - last)`: the nanosecond
difference truncated towards zero to whole milliseconds. -/
def elapsedMs (last now : Int) : Int :=
  Int.tdiv (now - last) 1000000

/-- Lines 203-219, `ready()` evaluated when the clock reads `now`.
`none` stands for an evaluation that divides by zero. The `||` is
short-circuit: the quotient is evaluated only when `output_fps == 0` is
false. -/
def ready (s : Slot) (now : Int) : Option Bool :=
  if s.last_frame_send = 0 then
    some true
  else
    let diff := elapsedMs s.last_frame_send now
    if s.output_fps = 0 then
      some true
    else
      match cdiv 1000 s.output_fps with
      | none => none
      | some q => if diff > q then some true else some false

/-- The slot after a history of pushes (oldest first), each with its frame
and its clock reading. -/
def afterPushes (s : Slot) : List (Span × Int) → Slot
  | [] => s
  | p :: ps => afterPushes (pushFrame s p.1 p.2) ps

/-- Reference definition of the throttle gate, following the spec's words:
true iff no frame has ever been pushed, or the rate is 0, or the elapsed time
since the last push, in whole milliseconds, exceeds `1000 / rate`.
`lastPush` is the clock reading of the most recent push, if there was one. -/
def readySpec (lastPush : Option Int) (rate : Int) (now : Int) : Bool :=
  match lastPush with
  | none => true
  | some t => decide (rate = 0 ∨ (now - t) / 1000000 > 1000 / rate)

/-- The clock reading of the most recent push of a history, if any. -/
def lastPushTime (h : List (Span × Int)) : Option Int :=
  h.getLast?.map Prod.snd

/-- A producer that consults `ready()` at each clock reading of `ticks` and
pushes `frame` exactly when it answers true. Returns the final slot and the
clock readings at which it pushed. -/
def produce (frame : Span) : Slot → List Int → Slot × List Int
  | s, [] => (s, [])
  | s, t :: ts =>
    if ready s t = some true then
      let r := produce frame (pushFrame s frame t) ts
      (r.1, t :: r.2)
    else
      produce frame s ts

/-- The pushes of a list of clock readings that fall in the one-second window
`[a, a + 10^9]` (nanoseconds). -/
def inWindow (a : Int) (ts : List Int) : List Int :=
  ts.filter (fun t => decide (a ≤ t ∧ t ≤ a + 1000000000))

/-- Spacing of two clock readings at rate `R`: `y` is more than `1/R` second
(`10^9 / R` nanoseconds, as a rational) after `x`. -/
def spaced (R x y : Int) : Prop :=
  R * (y - x) > 1000000000

/-! ## Lifecycle -/

/-- The service state seen by `start()` and `stop()`: the `running` flag and
the `worker_thread` handle (`some w` when it is joinable and refers to
thread `w`). `spawned` counts the threads created so far (the next thread
gets that number) and `joined` lists the threads that were joined. -/
structure Service where
  running : Bool
  worker_thread : Option Nat
  spawned : Nat
  joined : List Nat
deriving DecidableEq, Repr

/-- The service state after construction. -/
def Service.fresh : Service :=
  { running := false, worker_thread := none, spawned := 0, joined := [] }

/-- The statement `if (worker_thread.joinable()) worker_thread.join();`,
the join taken to return. -/
def joinWorker (s : Service) : Service :=
  match s.worker_thread with
  | some w => { s with worker_thread := none, joined := w :: s.joined }
  | none => s

/-- Lines 8-18, `stop()` run to completion (the join taken to return). -/
def stop (s : Service) : Service :=
  if s.running then
    joinWorker { s with running := false }
  else
    { s with running := false }

/-- Lines 20-31, `start()` run to completion. -/
def start (s : Service) : Service :=
  if !s.running then
    let s1 := joinWorker { s with running := true }
    { s1 with worker_thread := some s1.spawned, spawned := s1.spawned + 1 }
  else
    { s with running := true }

/-- The threads that were created and not joined. -/
def liveWorkers (s : Service) : List Nat :=
  (List.range s.spawned).filter (fun w => decide (w ∉ s.joined))

/-- Well-formed service state: the handle refers to the only thread that was
created and not joined. -/
def Service.WF (s : Service) : Prop :=
  liveWorkers s = s.worker_thread.toList ∧ ∀ w ∈ s.joined, w < s.spawned

/-! ## The worker and the threads around it -/

/-- Program points of `run()`: one per statement that calls the operating
system or touches shared state (the `running` flag, the mutex `m`, the
condition variable `cv`). -/
inductive Pc where
  | socketCall     -- line 36, about to call socket()
  | bindCall       -- lines 48-50, about to unlink and bind
  | listenCall     -- line 58
  | outerCheck     -- line 76, condition of the accept loop
  | pollCall       -- lines 78-80
  | timeoutCheck   -- line 91
  | acceptCall     -- line 98
  | recvCall       -- line 112
  | innerCheck     -- line 117, condition of the delivery loop
  | lockSlot       -- lines 121-122, about to lock m
  | preWaitCheck   -- line 124
  | waitPred       -- lines 130-131, about to evaluate the predicate of cv.wait
  | waitBlock      -- predicate was false, about to unlock m and block
  | waiting        -- blocked on cv, m released
  | wakeLock       -- notified, about to lock m again
  | postWaitCheck  -- line 133
  | takeStep       -- lines 139-148
  | sendCall       -- line 152
  | cleanup        -- lines 178-183
  | done           -- run() has returned (or no worker was ever started)
deriving DecidableEq, Repr

/-- Where the lifecycle owner stands inside `stop()`. -/
inductive StopPc where
  | idle      -- not inside stop()
  | notify    -- line 12, exchange returned true
  | join      -- line 15, about to join
deriving DecidableEq, Repr

/-- What the program did to the outside world, in order. -/
inductive Act where
  | socketOk (fd : Int)
  | unlink
  | bindOk
  | close (fd : Int)
  | accepted (fd : Int)
  | setFps (v : Int)
  | send (fd : Int) (frame : Span) (ret : Int)
  | notify
  | spawn
deriving DecidableEq, Repr

/-- The state of the whole object and its worker: service state, frame slot,
whether the worker holds the mutex `m`, the worker's program point and
locals (`server_fd`, `client_fd`, the `span` moved out of the slot), the
position of the lifecycle owner inside `stop()`, and the log of actions. -/
structure Sys where
  svc : Service
  slot : Slot
  mutexHeld : Bool
  pc : Pc
  server_fd : Int
  client_fd : Int
  span : Span
  stopPc : StopPc
  log : List Act
deriving DecidableEq, Repr

/-- A freshly constructed object: nothing running, no worker. -/
def Sys.fresh (fps : Int) : Sys :=
  { svc := Service.fresh, slot := Slot.fresh fps, mutexHeld := false, pc := Pc.done,
    server_fd := -1, client_fd := -1, span := { data := 0, size := 0 },
    stopPc := StopPc.idle, log := [] }

/-- Labels of the steps. The first group are statements of the worker, the
outcome of a system call (return value, whether `errno` is `EINTR`, the byte
left in the receive buffer) being part of the label; the second group are
steps of the producer and of the lifecycle owner. -/
inductive Ev where
  | socket (fd : Int)
  | bind (ret : Int)
  | listen (ret : Int)
  | loadRunning
  | poll (ret : Int) (eintr : Bool)
  | accept (fd : Int) (eintr : Bool)
  | recv (ret : Int) (buf : Int)
  | lock
  | pred
  | block
  | relock
  | take
  | send (ret : Int)
  | cleanup
  | push (span : Span) (now : Int)
  | startCall
  | stopExchange
  | stopNotify
  | stopJoin
deriving DecidableEq, Repr

/-- The statement `cv.notify_one()`: a worker blocked on `cv` is woken, and
nothing happens when no thread is blocked. -/
def notifyOne (s : Sys) : Sys :=
  if s.pc = Pc.waiting then { s with pc := Pc.wakeLock } else s

/-- The actions of lines 178-183. -/
def cleanupActs (client_fd server_fd : Int) : List Act :=
  (if client_fd ≠ -1 then [Act.close client_fd] else []) ++ [Act.close server_fd, Act.unlink]

/-- One statement of the worker `run()` (lines 33-184), at the program point
`s.pc`, the label carrying the outcome of the system call when the statement
is one. `none` when the label is not the statement at `s.pc`, or when the
statement is blocked. The wait of lines 130-131 is
`while (!pred()) cv.wait(lock)`: the label `pred` evaluates the predicate,
`block` releases the mutex and blocks, `relock` takes the mutex again after a
notification. A blocked worker is released by a notification only: spurious
wake-ups, which may happen but are never promised, are not steps. -/
def run (s : Sys) : Ev → Option Sys
  | Ev.socket fd =>
    if s.pc = Pc.socketCall then
      if fd = -1 then some { s with pc := Pc.done, server_fd := fd }
      else some { s with pc := Pc.bindCall, server_fd := fd, log := s.log ++ [Act.socketOk fd] }
    else none
  | Ev.bind ret =>
    if s.pc = Pc.bindCall then
      if ret = -1 then
        some { s with pc := Pc.done, log := s.log ++ [Act.unlink, Act.close s.server_fd] }
      else some { s with pc := Pc.listenCall, log := s.log ++ [Act.unlink, Act.bindOk] }
    else none
  | Ev.listen ret =>
    if s.pc = Pc.listenCall then
      if ret = -1 then some { s with pc := Pc.done, log := s.log ++ [Act.close s.server_fd] }
      else some { s with pc := Pc.outerCheck, client_fd := -1 }
    else none
  | Ev.loadRunning =>
    match s.pc with
    | Pc.outerCheck =>
      if s.svc.running then some { s with pc := Pc.pollCall, client_fd := -1 }
      else some { s with pc := Pc.cleanup }
    | Pc.timeoutCheck =>
      if !s.svc.running then some { s with pc := Pc.cleanup }
      else some { s with pc := Pc.outerCheck }
    | Pc.innerCheck =>
      if s.svc.running then some { s with pc := Pc.lockSlot }
      else some { s with pc := Pc.outerCheck }
    | Pc.preWaitCheck =>
      if !s.svc.running then some { s with pc := Pc.done, mutexHeld := false }
      else some { s with pc := Pc.waitPred }
    | Pc.postWaitCheck =>
      if !s.svc.running then some { s with pc := Pc.done, mutexHeld := false }
      else some { s with pc := Pc.takeStep }
    | _ => none
  | Ev.poll ret eintr =>
    if s.pc = Pc.pollCall then
      if ret = -1 then
        if eintr then some { s with pc := Pc.outerCheck } else some { s with pc := Pc.cleanup }
      else if ret = 0 then some { s with pc := Pc.timeoutCheck }
      else some { s with pc := Pc.acceptCall }
    else none
  | Ev.accept fd eintr =>
    if s.pc = Pc.acceptCall then
      if fd = -1 then
        if eintr then some { s with pc := Pc.outerCheck, client_fd := fd }
        else some { s with pc := Pc.cleanup, client_fd := fd }
      else some { s with pc := Pc.recvCall, client_fd := fd, log := s.log ++ [Act.accepted fd] }
    else none
  | Ev.recv ret buf =>
    if s.pc = Pc.recvCall then
      if ret ≥ 0 then
        some { s with pc := Pc.innerCheck, slot := { s.slot with output_fps := buf },
                      log := s.log ++ [Act.setFps buf] }
      else
        some { s with pc := Pc.outerCheck,
                      log := s.log ++ (if s.client_fd ≠ -1 then [Act.close s.client_fd] else []) }
    else none
  | Ev.lock =>
    if s.pc = Pc.lockSlot ∧ s.mutexHeld = false then
      if s.slot.latest_frame.isSome then some { s with pc := Pc.takeStep, mutexHeld := true }
      else some { s with pc := Pc.preWaitCheck, mutexHeld := true }
    else none
  | Ev.pred =>
    if s.pc = Pc.waitPred then
      if s.slot.latest_frame.isSome || !s.svc.running then some { s with pc := Pc.postWaitCheck }
      else some { s with pc := Pc.waitBlock }
    else none
  | Ev.block =>
    if s.pc = Pc.waitBlock then some { s with pc := Pc.waiting, mutexHeld := false }
    else none
  | Ev.relock =>
    if s.pc = Pc.wakeLock ∧ s.mutexHeld = false then
      some { s with pc := Pc.waitPred, mutexHeld := true }
    else none
  | Ev.take =>
    if s.pc = Pc.takeStep then
      match takeFrame s.slot with
      | (some span, slot1) =>
        if span.size = 0 then
          some { s with pc := Pc.innerCheck, slot := slot1, span := span, mutexHeld := false }
        else some { s with pc := Pc.sendCall, slot := slot1, span := span }
      | (none, slot1) => some { s with pc := Pc.innerCheck, slot := slot1, mutexHeld := false }
    else none
  | Ev.send ret =>
    if s.pc = Pc.sendCall then
      if ret = -1 then
        some { s with pc := Pc.outerCheck, mutexHeld := false,
                      log := s.log ++ [Act.send s.client_fd s.span ret, Act.close s.client_fd] }
      else
        some { s with pc := Pc.innerCheck, mutexHeld := false,
                      log := s.log ++ [Act.send s.client_fd s.span ret] }
    else none
  | Ev.cleanup =>
    if s.pc = Pc.cleanup then
      some { s with pc := Pc.done, log := s.log ++ cleanupActs s.client_fd s.server_fd }
    else none
  | _ => none

/-- One step of the system: a statement of the worker, or a step of another
thread. `pushFrame` (lines 191-200) is one step, its critical section followed
by `notify_one`, enabled when the worker does not hold the mutex; `start()`
(lines 20-31) is one step, enabled when the mutex is free and, if it has to
create a thread, when no worker is executing; `stop()` (lines 8-18) is three
steps: the exchange, the notification, and the join, which is enabled once the
worker has returned. -/
def step (s : Sys) : Ev → Option Sys
  | Ev.push span now =>
    if s.mutexHeld = false then
      some (notifyOne { s with slot := pushFrame s.slot span now })
    else none
  | Ev.startCall =>
    if s.stopPc = StopPc.idle ∧ s.mutexHeld = false then
      if s.svc.running then some { s with svc := start s.svc }
      else if s.pc = Pc.done then
        some { s with svc := start s.svc, pc := Pc.socketCall, log := s.log ++ [Act.spawn] }
      else none
    else none
  | Ev.stopExchange =>
    if s.stopPc = StopPc.idle then
      if s.svc.running then
        some { s with svc := { s.svc with running := false }, stopPc := StopPc.notify }
      else some { s with svc := { s.svc with running := false } }
    else none
  | Ev.stopNotify =>
    if s.stopPc = StopPc.notify then
      let s1 := notifyOne { s with log := s.log ++ [Act.notify] }
      if s1.svc.worker_thread.isSome then some { s1 with stopPc := StopPc.join }
      else some { s1 with stopPc := StopPc.idle }
    else none
  | Ev.stopJoin =>
    if s.stopPc = StopPc.join ∧ s.pc = Pc.done then
      some { s with svc := joinWorker s.svc, stopPc := StopPc.idle }
    else none
  | e => run s e

/-- Run a schedule: the labels in order, `none` as soon as one is not
enabled. -/
def exec (s : Sys) : List Ev → Option Sys
  | [] => some s
  | e :: es =>
    match step s e with
    | some s1 => exec s1 es
    | none => none

/-- How many times `close(fd)` was called. -/
def closeCount (fd : Int) (log : List Act) : Nat :=
  log.count (Act.close fd)

/-- Whether the socket path exists in the file system after the actions of
the log: a successful bind creates it, unlink removes it. -/
def pathExists : List Act → Bool → Bool
  | [], b => b
  | Act.bindOk :: l, _ => pathExists l true
  | Act.unlink :: l, _ => pathExists l false
  | _ :: l, b => pathExists l b

/-- The frames handed to `send()` on descriptor `fd`. -/
def sentOn (fd : Int) : List Act → List Span
  | [] => []
  | Act.send fd1 frame _ :: l => if fd1 = fd then frame :: sentOn fd l else sentOn fd l
  | _ :: l => sentOn fd l

/-- The frames handed to a `send()` on descriptor `fd` that did not fail
(did not return -1). -/
def deliveredOn (fd : Int) : List Act → List Span
  | [] => []
  | Act.send fd1 frame ret :: l =>
    if fd1 = fd ∧ ret ≠ -1 then frame :: deliveredOn fd l else deliveredOn fd l
  | _ :: l => deliveredOn fd l

/-- The state `st1` right after the take step of lines 139-148, `st` being the
state before the pushes and `B` the frame pushed last: the slot is empty, the
worker holds `B`, nothing was transmitted yet; a zero-length `B` is dropped
(the worker is back at the loop condition, mutex released); a non-empty `B`
is about to be sent, and whatever `send()` returns, that one call on the
client descriptor carrying `B` is all that is added to the log (followed by
the close of line 157 when it fails), `B` counting as delivered exactly when
the call does not fail, and the slot is still empty afterwards. -/
def TookLatest (st st1 : Sys) (B : Span) : Prop :=
  st1.slot.latest_frame = none ∧ st1.span = B ∧ st1.log = st.log
  ∧ st1.client_fd = st.client_fd
  ∧ (B.size = 0 → st1.pc = Pc.innerCheck ∧ st1.mutexHeld = false)
  ∧ (B.size ≠ 0 → st1.pc = Pc.sendCall ∧ ∀ r : Int, ∃ st2, step st1 (Ev.send r) = some st2
      ∧ st2.slot.latest_frame = none
      ∧ st2.log = st.log ++ Act.send st.client_fd B r ::
          (if r = -1 then [Act.close st.client_fd] else [])
      ∧ sentOn st.client_fd st2.log = sentOn st.client_fd st.log ++ [B]
      ∧ deliveredOn st.client_fd st2.log
          = deliveredOn st.client_fd st.log ++ (if r = -1 then [] else [B]))

/-- One idle round of the accept loop while running: poll times out
(line 89), the flag is read at line 91 and again at line 76. -/
def idleRound : List Ev :=
  [Ev.poll 0 false, Ev.loadRunning, Ev.loadRunning]

/-- The schedule made of `k` idle rounds. -/
def idleRounds : Nat → List Ev
  | 0 => []
  | k + 1 => idleRound ++ idleRounds k



/-- Outcome of a start-up that the worker aborted, `s` being the state before
`start()` and `s1` the state once the worker has returned: the worker is gone,
the log grew by the thread creation and the actions `acts`, the service state
is the one `start()` left (running flag true), a further `start()` changes
nothing, and `stop()` followed by `start()` creates a new worker. -/
def AbortedStartup (s s1 : Sys) (acts : List Act) : Prop :=
  s1.pc = Pc.done ∧ s1.log = s.log ++ Act.spawn :: acts
  ∧ s1.svc = start s.svc ∧ s1.svc.running = true
  ∧ step s1 Ev.startCall = some s1
  ∧ ∃ s2, exec s1 [Ev.stopExchange, Ev.stopNotify, Ev.stopJoin, Ev.startCall] = some s2
      ∧ s2.pc = Pc.socketCall ∧ s2.svc.running = true
      ∧ s2.svc.spawned = s1.svc.spawned + 1

/-! ## Frame slot: latest wins -/

theorem ready_ne_none (s : Slot) (now : Int) : ready s now ≠ none := by
  unfold ready cdiv
  by_cases h0 : s.last_frame_send = 0
  · simp [h0]
  · by_cases hf : s.output_fps = 0
    · simp [h0, hf]
    · simp only [h0, hf, if_false]
      split <;> simp

theorem ready_of_nonzero (s : Slot) (now : Int) (h0 : s.last_frame_send ≠ 0)
    (hf : s.output_fps ≠ 0) :
    ready s now
      = some (decide (elapsedMs s.last_frame_send now > Int.tdiv 1000 s.output_fps)) := by
  unfold ready cdiv
  simp only [h0, hf, if_false]
  by_cases h : elapsedMs s.last_frame_send now > Int.tdiv 1000 s.output_fps
  · simp [h]
  · simp [h]

theorem elapsedMs_le_zero (last now : Int) (h : now ≤ last) : elapsedMs last now ≤ 0 := by
  unfold elapsedMs
  have h1 : 0 ≤ last - now := by omega
  have h2 := Int.tdiv_nonneg h1 (by decide : (0:Int) ≤ 1000000)
  have h3 : (now - last) = -(last - now) := by ring
  rw [h3, Int.neg_tdiv]
  omega

theorem elapsedMs_of_le (last now : Int) (h : last ≤ now) :
    elapsedMs last now = (now - last) / 1000000 := by
  unfold elapsedMs
  exact Int.tdiv_eq_ediv (by omega) (by decide)



theorem afterPushes_fps (h : List (Span × Int)) (s : Slot) :
    (afterPushes s h).output_fps = s.output_fps := by
  induction h generalizing s with
  | nil => rfl
  | cons p ps ih => simp [afterPushes, ih, pushFrame]

theorem lastPushTime_cons (p : Span × Int) (ps : List (Span × Int)) :
    lastPushTime (p :: ps) = some ((lastPushTime ps).getD p.2) := by
  cases ps with
  | nil => simp [lastPushTime]
  | cons q qs => simp [lastPushTime, List.getLast?_cons_cons, List.getLast?_eq_getLast]

theorem afterPushes_last (h : List (Span × Int)) (s : Slot) :
    (afterPushes s h).last_frame_send = (lastPushTime h).getD s.last_frame_send := by
  induction h generalizing s with
  | nil => rfl
  | cons p ps ih =>
    rw [afterPushes, ih, lastPushTime_cons]
    simp [pushFrame]

theorem gate_iff (t now R : Int) (hR : 1 ≤ R) :
    elapsedMs t now > Int.tdiv 1000 R ↔ (now - t) / 1000000 > 1000 / R := by
  have hq : Int.tdiv 1000 R = 1000 / R := Int.tdiv_eq_ediv (by decide) (by omega)
  have hq0 : 0 ≤ (1000 : Int) / R := Int.ediv_nonneg (by decide) (by omega)
  rw [hq]
  by_cases hle : t ≤ now
  · rw [elapsedMs_of_le t now hle]
  · have h1 := elapsedMs_le_zero t now (by omega)
    have h2 : (now - t) / 1000000 < 0 := by omega
    constructor <;> intro h <;> omega

theorem ready_refines_aux (s0 : Slot) (h : List (Span × Int)) (now : Int)
    (h0 : s0.last_frame_send = 0) (hR : 0 ≤ s0.output_fps ∧ s0.output_fps ≤ 255)
    (hne : lastPushTime h ≠ some 0) :
    ready (afterPushes s0 h) now = some (readySpec (lastPushTime h) s0.output_fps now) := by
  have hl := afterPushes_last h s0
  have hf := afterPushes_fps h s0
  cases hlp : lastPushTime h with
  | none =>
    rw [hlp] at hl
    simp only [Option.getD_none] at hl
    unfold ready
    simp [hl, h0, readySpec]
  | some t =>
    rw [hlp] at hl hne
    simp only [Option.getD_some] at hl
    have ht : t ≠ 0 := fun h => hne (by rw [h])
    by_cases hz : s0.output_fps = 0
    · unfold ready
      simp [hl, ht, hf, hz, readySpec]
    · rw [ready_of_nonzero _ _ (by rw [hl]; exact ht) (by rw [hf]; exact hz), hl, hf]
      simp only [readySpec, hz, false_or]
      congr 1
      exact decide_eq_decide.mpr (gate_iff t now s0.output_fps (by omega))



theorem gap_of_ready (s : Slot) (now : Int) (h0 : s.last_frame_send ≠ 0)
    (hR : 1 ≤ s.output_fps ∧ s.output_fps ≤ 255) (hr : ready s now = some true) :
    s.output_fps * (now - s.last_frame_send) > 1000000000 := by
  rw [ready_of_nonzero s now h0 (by omega)] at hr
  have hg : elapsedMs s.last_frame_send now > Int.tdiv 1000 s.output_fps := by simpa using hr
  have hq : Int.tdiv 1000 s.output_fps = 1000 / s.output_fps :=
    Int.tdiv_eq_ediv (by decide) (by omega)
  have hq0 : 0 ≤ (1000 : Int) / s.output_fps := Int.ediv_nonneg (by decide) (by omega)
  rw [hq] at hg
  have hle : s.last_frame_send ≤ now := by
    by_contra hc
    have := elapsedMs_le_zero s.last_frame_send now (by omega)
    omega
  rw [elapsedMs_of_le _ _ hle] at hg
  set R := s.output_fps with hRdef
  set d := now - s.last_frame_send with hd
  have h1 : R * (1000 / R) + 1000 % R = 1000 := Int.ediv_add_emod 1000 R
  have h2 : 1000 % R < R := Int.emod_lt_of_pos 1000 (by omega)
  have h3 : d / 1000000 * 1000000 ≤ d := Int.ediv_mul_le d (by decide)
  have h4 : 1000 / R + 1 ≤ d / 1000000 := by omega
  have h5 : R * (1000 / R + 1) ≤ R * (d / 1000000) :=
    Int.mul_le_mul_of_nonneg_left h4 (by omega)
  have h6 : R * (d / 1000000) * 1000000 ≤ R * d := by
    have := Int.mul_le_mul_of_nonneg_left h3 (by omega : (0:Int) ≤ R)
    calc R * (d / 1000000) * 1000000 = R * (d / 1000000 * 1000000) := by ring
      _ ≤ R * d := this
  have h7 : R * (1000 / R + 1) = R * (1000 / R) + R := by ring
  omega


theorem spaced_trans (R x y z : Int) (h1 : spaced R x y) (h2 : spaced R y z) :
    spaced R x z := by
  unfold spaced at *
  have : R * (z - x) = R * (z - y) + R * (y - x) := by ring
  omega

theorem produce_spaced (frame : Span) (ticks : List Int) (s : Slot)
    (hR : 1 ≤ s.output_fps ∧ s.output_fps ≤ 255) (hne : ∀ t ∈ ticks, t ≠ 0) :
    List.Pairwise (spaced s.output_fps) (produce frame s ticks).2
    ∧ (s.last_frame_send ≠ 0 →
        ∀ p ∈ (produce frame s ticks).2, spaced s.output_fps s.last_frame_send p) := by
  induction ticks generalizing s with
  | nil => simp [produce]
  | cons t ts ih =>
    have hts : ∀ x ∈ ts, x ≠ 0 := fun x hx => hne x (List.mem_cons_of_mem _ hx)
    have ht : t ≠ 0 := hne t (List.mem_cons_self _ _)
    unfold produce
    split
    · rename_i hr
      have ih1 := ih (pushFrame s frame t) hR hts
      have hfps : (pushFrame s frame t).output_fps = s.output_fps := rfl
      have hlast : (pushFrame s frame t).last_frame_send = t := rfl
      rw [hfps, hlast] at ih1
      obtain ⟨hp, hq⟩ := ih1
      have hq1 := hq ht
      refine ⟨?_, ?_⟩
      · exact List.pairwise_cons.mpr ⟨hq1, hp⟩
      · intro h0 p hpm
        have hg : spaced s.output_fps s.last_frame_send t := gap_of_ready s t h0 hR hr
        rcases List.mem_cons.mp hpm with rfl | hmem
        · exact hg
        · exact spaced_trans _ _ _ _ hg (hq1 p hmem)
    · exact ih s hR hts

theorem spaced_count (R hi : Int) (hR : 0 ≤ R) (l : List Int) (x : Int)
    (hp : List.Pairwise (spaced R) (x :: l)) (hx : x ≤ hi) (hl : ∀ y ∈ l, y ≤ hi) :
    R * (hi - x) ≥ (l.length : Int) * 1000000001 := by
  induction l generalizing x with
  | nil =>
    have : 0 ≤ R * (hi - x) := Int.mul_nonneg hR (by omega)
    simpa using this
  | cons y l ih =>
    obtain ⟨hxy, hyl⟩ := List.pairwise_cons.mp hp
    have h1 : spaced R x y := hxy y (List.mem_cons_self _ _)
    have h2 := ih y hyl (hl y (List.mem_cons_self _ _))
      (fun z hz => hl z (List.mem_cons_of_mem _ hz))
    unfold spaced at h1
    have h3 : R * (hi - x) = R * (hi - y) + R * (y - x) := by ring
    simp only [List.length_cons, Nat.cast_add, Nat.cast_one]
    omega

theorem window_count (R a : Int) (hR : 1 ≤ R) (l : List Int)
    (hp : List.Pairwise (spaced R) l) :
    ((inWindow a l).length : Int) ≤ R := by
  have hw : List.Pairwise (spaced R) (inWindow a l) := List.Pairwise.filter _ hp
  have hm : ∀ y ∈ inWindow a l, a ≤ y ∧ y ≤ a + 1000000000 := by
    intro y hy
    simpa using (List.mem_filter.mp hy).2
  cases hl : inWindow a l with
  | nil => simp; omega
  | cons x l1 =>
    rw [hl] at hw hm
    have hx := hm x (List.mem_cons_self _ _)
    have h1 := spaced_count R (a + 1000000000) (by omega) l1 x hw hx.2
      (fun y hy => (hm y (List.mem_cons_of_mem _ hy)).2)
    have h2 : R * (a + 1000000000 - x) ≤ R * 1000000000 :=
      Int.mul_le_mul_of_nonneg_left (by omega) (by omega)
    simp only [List.length_cons, Nat.cast_add, Nat.cast_one]
    omega


/-! ## Lifecycle lemmas -/

theorem liveWorkers_join (s : Service) (w : Nat) :
    liveWorkers { s with worker_thread := none, joined := w :: s.joined }
      = (liveWorkers s).filter (fun v => decide (v ≠ w)) := by
  unfold liveWorkers
  rw [List.filter_filter]
  apply List.filter_congr
  intro v _
  simp only [List.mem_cons, not_or, ne_eq, Bool.decide_and]

theorem joinWorker_WF (s : Service) (h : s.WF) :
    (joinWorker s).WF ∧ (joinWorker s).worker_thread = none
      ∧ (joinWorker s).spawned = s.spawned ∧ (joinWorker s).running = s.running := by
  obtain ⟨hl, hj⟩ := h
  unfold joinWorker
  cases hw : s.worker_thread with
  | none =>
    refine ⟨⟨?_, hj⟩, hw, rfl, rfl⟩
    simpa [hw] using hl
  | some w =>
    refine ⟨⟨?_, ?_⟩, rfl, rfl, rfl⟩
    · show liveWorkers { s with worker_thread := none, joined := w :: s.joined } = _
      rw [liveWorkers_join, hl, hw]
      simp
    · intro v hv
      show v < s.spawned
      rcases List.mem_cons.mp hv with rfl | hv1
      · have : v ∈ liveWorkers s := by rw [hl, hw]; simp
        unfold liveWorkers at this
        exact List.mem_range.mp (List.mem_filter.mp this).1
      · exact hj v hv1

theorem spawn_WF (s : Service) (h : s.WF) (hn : s.worker_thread = none) :
    Service.WF { s with worker_thread := some s.spawned, spawned := s.spawned + 1 }
    ∧ liveWorkers { s with worker_thread := some s.spawned, spawned := s.spawned + 1 }
        = [s.spawned] := by
  obtain ⟨hl, hj⟩ := h
  have hfresh : s.spawned ∉ s.joined := fun hm => Nat.lt_irrefl _ (hj _ hm)
  have hlive : liveWorkers { s with worker_thread := some s.spawned, spawned := s.spawned + 1 }
      = [s.spawned] := by
    unfold liveWorkers at hl ⊢
    show List.filter _ (List.range (s.spawned + 1)) = _
    rw [List.range_succ, List.filter_append, hl, hn]
    simp [hfresh]
  refine ⟨⟨?_, ?_⟩, hlive⟩
  · rw [hlive]; rfl
  · intro v hv
    show v < s.spawned + 1
    exact Nat.lt_succ_of_lt (hj v hv)

theorem stop_WF (s : Service) (h : s.WF) : (stop s).WF := by
  unfold stop
  split
  · exact (joinWorker_WF { s with running := false } h).1
  · exact h

theorem start_WF (s : Service) (h : s.WF) : (start s).WF := by
  unfold start
  split
  · have hj := joinWorker_WF { s with running := true } h
    exact (spawn_WF _ hj.1 hj.2.1).1
  · exact h


/-! ## Log lemmas -/

theorem sentOn_append (fd : Int) (l1 l2 : List Act) :
    sentOn fd (l1 ++ l2) = sentOn fd l1 ++ sentOn fd l2 := by
  induction l1 with
  | nil => rfl
  | cons a l ih =>
    cases a with
    | send fd1 f r =>
      by_cases h : fd1 = fd <;> simp [sentOn, h, ih]
    | _ => simpa [sentOn] using ih

theorem deliveredOn_append (fd : Int) (l1 l2 : List Act) :
    deliveredOn fd (l1 ++ l2) = deliveredOn fd l1 ++ deliveredOn fd l2 := by
  induction l1 with
  | nil => rfl
  | cons a l ih =>
    cases a with
    | send fd1 f r =>
      by_cases h : fd1 = fd ∧ r ≠ -1 <;> simp [deliveredOn, h, ih]
    | _ => simpa [deliveredOn] using ih

theorem tookLatest_zero (st : Sys) (B A : Span) (tA tB : Int) (hB : B.size = 0) :
    TookLatest st
      { st with pc := Pc.innerCheck, span := B, mutexHeld := false,
                slot := { pushFrame (pushFrame st.slot A tA) B tB with latest_frame := none } }
      B :=
  ⟨rfl, rfl, rfl, rfl, fun _ => ⟨rfl, rfl⟩, fun h => absurd hB h⟩

theorem tookLatest_send (st : Sys) (B A : Span) (tA tB : Int) (hB : B.size ≠ 0) :
    TookLatest st
      { st with pc := Pc.sendCall, span := B, mutexHeld := true,
                slot := { pushFrame (pushFrame st.slot A tA) B tB with latest_frame := none } }
      B := by
  refine ⟨rfl, rfl, rfl, rfl, fun h => absurd h hB, fun _ => ⟨rfl, ?_⟩⟩
  intro r
  by_cases hr : r = -1
  · subst hr
    refine ⟨_, by simp only [step, run, if_true]; rfl, rfl, ?_, ?_, ?_⟩
    · simp
    · simp [sentOn_append, sentOn]
    · simp [deliveredOn_append, deliveredOn]
  · refine ⟨_, by simp only [step, run, if_true, hr, if_false]; rfl, rfl, ?_, ?_, ?_⟩
    · simp [hr]
    · simp [sentOn_append, sentOn]
    · simp [deliveredOn_append, deliveredOn, hr]

/-! ## Claims on the frame slot, the throttle and the lifecycle -/

/-- C1 as stated fails ("exactly one frame is delivered for the two pushes",
for every two frames): when the frame pushed last is zero-length, line 144
skips it, so after the two pushes, the lock and the take nothing has been
handed to `send()` and the worker, finding the slot empty, blocks again with
the log still empty; and when the one `send()` of a non-empty last frame
fails, the log shows that call returning -1 and the close, and no frame was
delivered. -/
theorem latest_wins_counterexample :
    (∃ s, exec { Sys.fresh 10 with svc := start Service.fresh, pc := Pc.lockSlot, client_fd := 5 }
        [Ev.push ⟨1, 4⟩ 10, Ev.push ⟨2, 0⟩ 20, Ev.lock, Ev.take, Ev.loadRunning, Ev.lock,
         Ev.loadRunning, Ev.pred, Ev.block] = some s
      ∧ s.pc = Pc.waiting ∧ s.slot.latest_frame = none
      ∧ sentOn 5 s.log = [] ∧ deliveredOn 5 s.log = [])
    ∧ (∃ s, exec { Sys.fresh 10 with svc := start Service.fresh, pc := Pc.lockSlot, client_fd := 5 }
        [Ev.push ⟨1, 4⟩ 10, Ev.push ⟨2, 4⟩ 20, Ev.lock, Ev.take, Ev.send (-1)] = some s
      ∧ s.log = [Act.send 5 ⟨2, 4⟩ (-1), Act.close 5]
      ∧ deliveredOn 5 s.log = []) :=
  ⟨⟨_, rfl, rfl, rfl, rfl, rfl⟩, ⟨_, rfl, rfl, rfl⟩⟩

/-- C1 (amended): latest-wins frame slot. For every slot state and frames A,
B: after pushFrame(A) then pushFrame(B) with no delivery step in between the
slot holds one pending frame, B; the take step of the delivery loop
(lines 139-142) takes B and leaves the slot empty, and a second take finds
nothing. In the session loop this holds both for a worker about to lock the
slot and for a worker blocked in `cv.wait` (running true), which the first
push wakes: after the two pushes the worker's next take holds B with the slot
empty and nothing transmitted. A zero-length B is then skipped and nothing
is transmitted for the two pushes; a non-empty B is handed to exactly one
`send()` on the client descriptor, which is all that is transmitted for the
two pushes, B being delivered exactly when that call does not fail; A is
never handed to `send()`. -/
theorem latest_wins (s : Slot) (A B : Span) (tA tB : Int) :
    (pushFrame (pushFrame s A tA) B tB).latest_frame = some B
    ∧ takeFrame (pushFrame (pushFrame s A tA) B tB)
        = (some B, { pushFrame (pushFrame s A tA) B tB with latest_frame := none })
    ∧ (takeFrame (takeFrame (pushFrame (pushFrame s A tA) B tB)).2).1 = none
    ∧ (∀ st : Sys, st.slot = s → st.mutexHeld = false → st.pc = Pc.lockSlot →
        ∃ st1, exec st [Ev.push A tA, Ev.push B tB, Ev.lock, Ev.take] = some st1
          ∧ TookLatest st st1 B)
    ∧ (∀ st : Sys, st.slot = s → st.mutexHeld = false → st.pc = Pc.waiting →
        st.svc.running = true →
        ∃ st1, exec st [Ev.push A tA, Ev.push B tB, Ev.relock, Ev.pred, Ev.loadRunning,
            Ev.take] = some st1
          ∧ TookLatest st st1 B) := by
  refine ⟨rfl, rfl, rfl, ?_, ?_⟩
  · intro st _ hm hpc
    by_cases hB : B.size = 0
    · exact ⟨_, by simp [exec, step, run, hpc, hm, notifyOne, pushFrame, takeFrame, hB],
        tookLatest_zero st B A tA tB hB⟩
    · exact ⟨_, by simp [exec, step, run, hpc, hm, notifyOne, pushFrame, takeFrame, hB],
        tookLatest_send st B A tA tB hB⟩
  · intro st _ hm hpc hrun
    by_cases hB : B.size = 0
    · exact ⟨_, by simp [exec, step, run, hpc, hm, hrun, notifyOne, pushFrame, takeFrame, hB],
        tookLatest_zero st B A tA tB hB⟩
    · exact ⟨_, by simp [exec, step, run, hpc, hm, hrun, notifyOne, pushFrame, takeFrame, hB],
        tookLatest_send st B A tA tB hB⟩

/-- Witness for C1: a running service whose worker, serving client 5, is
blocked in `cv.wait` on an empty slot; frames (1, 4) and (2, 4) are pushed. -/
theorem latest_wins_witness :
    ∃ st1, exec { Sys.fresh 10 with svc := start Service.fresh, pc := Pc.waiting, client_fd := 5 }
        [Ev.push ⟨1, 4⟩ 10, Ev.push ⟨2, 4⟩ 20, Ev.relock, Ev.pred, Ev.loadRunning,
         Ev.take] = some st1
      ∧ TookLatest { Sys.fresh 10 with svc := start Service.fresh, pc := Pc.waiting, client_fd := 5 }
          st1 ⟨2, 4⟩ :=
  (latest_wins (Slot.fresh 10) ⟨1, 4⟩ ⟨2, 4⟩ 10 20).2.2.2.2
    { Sys.fresh 10 with svc := start Service.fresh, pc := Pc.waiting, client_fd := 5 }
    rfl rfl rfl rfl

/-- C2: `ready()` equals its reference definition. Clock readings are values
of `steady_clock::now()` (line 196 is the only write of `last_frame_send`),
which on a running system are positive, never the epoch value 0; the
hypothesis asks only that the last push was not at reading 0. For every rate
in 0..255, every history of pushes from a slot that was never pushed to, and
every current time, `ready()` returns the value of the reference definition
(no push yet, or rate 0, or elapsed whole milliseconds > 1000 / rate); it
never divides by zero, whatever the state; it is true before any push
whatever the rate; it is true for rate 0; and for a rate in 1..255 it is false
at elapsed time 0 right after a push. -/
theorem ready_refines_spec (s0 : Slot) (h : List (Span × Int)) (now : Int)
    (h0 : s0.last_frame_send = 0) (hR : 0 ≤ s0.output_fps ∧ s0.output_fps ≤ 255)
    (hne : lastPushTime h ≠ some 0) :
    ready (afterPushes s0 h) now = some (readySpec (lastPushTime h) s0.output_fps now)
    ∧ (∀ (s : Slot) (t : Int), ready s t ≠ none)
    ∧ (∀ (s : Slot) (t : Int), s.last_frame_send = 0 → ready s t = some true)
    ∧ (∀ (s : Slot) (t : Int), s.output_fps = 0 → ready s t = some true)
    ∧ (∀ (s : Slot) (f : Span) (t : Int), t ≠ 0 → 1 ≤ s.output_fps → s.output_fps ≤ 255 →
        ready (pushFrame s f t) t = some false) := by
  refine ⟨ready_refines_aux s0 h now h0 hR hne, ready_ne_none, ?_, ?_, ?_⟩
  · intro s t hs
    simp [ready, hs]
  · intro s t hs
    unfold ready
    by_cases hl : s.last_frame_send = 0 <;> simp [hl, hs]
  · intro s f t ht h1 h2
    rw [ready_of_nonzero _ _ (by simpa [pushFrame] using ht)
      (by simp only [pushFrame]; omega)]
    have hq0 : 0 ≤ Int.tdiv 1000 s.output_fps := Int.tdiv_nonneg (by decide) (by omega)
    have he : elapsedMs t t = 0 := by simp [elapsedMs]
    simp only [pushFrame, he]
    simp
    exact hq0

/-- Witness for C2: rate 10, pushes at clock readings 5 and 7, asked at
clock reading 9. -/
theorem ready_refines_spec_witness :
    ready (afterPushes (Slot.fresh 10) [(⟨1, 4⟩, 5), (⟨2, 4⟩, 7)]) 9
      = some (readySpec (lastPushTime [((⟨1, 4⟩ : Span), (5 : Int)), (⟨2, 4⟩, 7)]) 10 9) :=
  (ready_refines_spec (Slot.fresh 10) [(⟨1, 4⟩, 5), (⟨2, 4⟩, 7)] 9 rfl
    (by decide) (by decide)).1

/-- C3: throttle bound in exact time. Clock readings are values of
`steady_clock::now()`, positive on a running system; the hypotheses ask only
that they are not the epoch value 0. For every rate R in 1..255 and every push
at clock reading t (nanoseconds), if `ready()` returns true at clock reading
t2 with no push in between, then the exact elapsed time (t2 - t) / 10^6
milliseconds is, as a rational, strictly greater than 1000 / R milliseconds,
despite the truncation to whole milliseconds and the integer quotient. Hence
a producer that asks `ready()` at any clock readings, in any order, and
pushes only when it answers true pushes at most R frames in any window of one
second. -/
theorem throttle_exact (s : Slot) (f : Span) (t t2 : Int)
    (hR : 1 ≤ s.output_fps ∧ s.output_fps ≤ 255) (ht : t ≠ 0)
    (hready : ready (pushFrame s f t) t2 = some true) :
    (((t2 - t : Int) : ℚ) / 1000000 > 1000 / ((s.output_fps : Int) : ℚ))
    ∧ ∀ (ticks : List Int) (a : Int), (∀ x ∈ ticks, x ≠ 0) →
        ((inWindow a (produce f s ticks).2).length : Int) ≤ s.output_fps := by
  constructor
  · have hg := gap_of_ready (pushFrame s f t) t2 (by simpa [pushFrame] using ht) hR hready
    simp only [pushFrame] at hg
    have hRq : (0 : ℚ) < ((s.output_fps : Int) : ℚ) := by
      have : (0 : Int) < s.output_fps := by omega
      exact_mod_cast this
    have hgq : (((s.output_fps * (t2 - t) : Int)) : ℚ) > ((1000000000 : Int) : ℚ) := by
      exact_mod_cast hg
    push_cast at hgq
    rw [gt_iff_lt, div_lt_div_iff₀ hRq (by norm_num)]
    push_cast
    linarith
  · intro ticks a hne
    exact window_count _ a hR.1 _ (produce_spaced f ticks s hR hne).1

/-- Witness for C3: rate 10, push at clock reading 5 ns, ready again at
101000005 ns. -/
theorem throttle_exact_witness :
    ((((101000005 : Int) - 5 : Int) : ℚ) / 1000000
        > 1000 / (((Slot.fresh 10).output_fps : Int) : ℚ))
    ∧ ∀ (ticks : List Int) (a : Int), (∀ x ∈ ticks, x ≠ 0) →
        ((inWindow a (produce ⟨1, 4⟩ (Slot.fresh 10) ticks).2).length : Int)
          ≤ (Slot.fresh 10).output_fps :=
  throttle_exact (Slot.fresh 10) ⟨1, 4⟩ 5 101000005 (by decide) (by decide) (by rfl)


/-- C4: `start()` and `stop()` are idempotent on the service state. `stop()`
on a service that is not running changes nothing; `stop()` twice leaves the
state of a single `stop()`; `start()` on a running service changes nothing
(no thread is created); and on a well-formed state `start()` after `stop()`
leaves the service running, its handle referring to a thread that did not
exist before, that thread being the only one created and not joined, and the
previous worker (if any) being among the joined ones. Well-formedness holds
after construction and is kept by both operations. -/
theorem lifecycle_idempotent (s : Service) :
    (s.running = false → stop s = s)
    ∧ stop (stop s) = stop s
    ∧ (s.running = true → start s = s)
    ∧ (s.WF →
        (start (stop s)).running = true
        ∧ (start (stop s)).worker_thread = some s.spawned
        ∧ (start (stop s)).spawned = s.spawned + 1
        ∧ liveWorkers (start (stop s)) = [s.spawned]
        ∧ (∀ w, s.worker_thread = some w → w ∈ (start (stop s)).joined ∧ w ≠ s.spawned)
        ∧ (start (stop s)).WF)
    ∧ Service.fresh.WF
    ∧ (s.WF → (stop s).WF ∧ (start s).WF) := by
  refine ⟨?_, ?_, ?_, ?_, ?_, ?_⟩
  · intro h
    cases s
    simp_all [stop]
  · cases s with
    | mk r w n j => cases r <;> cases w <;> simp [stop, joinWorker]
  · intro h
    cases s
    simp_all [start]
  · intro hwf
    have hstop := stop_WF s hwf
    have hlt : ∀ w, s.worker_thread = some w → w < s.spawned := by
      intro w hw
      have : w ∈ liveWorkers s := by rw [hwf.1, hw]; simp
      exact List.mem_range.mp (List.mem_filter.mp this).1
    have hrun : (stop s).running = false := by
      cases s with
      | mk r w n j => cases r <;> cases w <;> simp [stop, joinWorker]
    have hsp : (stop s).spawned = s.spawned := by
      cases s with
      | mk r w n j => cases r <;> cases w <;> simp [stop, joinWorker]
    have hj := joinWorker_WF { stop s with running := true } hstop
    have hspawn := spawn_WF _ hj.1 hj.2.1
    have hstart : start (stop s) =
        { joinWorker { stop s with running := true } with
          worker_thread := some (joinWorker { stop s with running := true }).spawned,
          spawned := (joinWorker { stop s with running := true }).spawned + 1 } := by
      simp [start, hrun]
    have hsp2 : (joinWorker { stop s with running := true }).spawned = s.spawned := by
      rw [hj.2.2.1]; exact hsp
    rw [hstart]
    refine ⟨hj.2.2.2, ?_, ?_, ?_, ?_, hspawn.1⟩
    · simp [hsp2]
    · simp [hsp2]
    · rw [hspawn.2, hsp2]
    · intro w hw
      refine ⟨?_, Nat.ne_of_lt (hlt w hw)⟩
      cases s with
      | mk r wt n j =>
        simp only at hw
        subst hw
        cases r <;> simp [stop, joinWorker]
  · constructor
    · rfl
    · intro w hw
      simp [Service.fresh] at hw
  · intro hwf
    exact ⟨stop_WF s hwf, start_WF s hwf⟩

/-- Witness for C4: a running service whose worker is thread 0 (running flag
true, handle to thread 0, one thread created, none joined). -/
theorem lifecycle_idempotent_witness :
    (start (stop (⟨true, some 0, 1, []⟩ : Service))).running = true
    ∧ liveWorkers (start (stop (⟨true, some 0, 1, []⟩ : Service))) = [1]
    ∧ stop (stop Service.fresh) = stop Service.fresh :=
  ⟨((lifecycle_idempotent ⟨true, some 0, 1, []⟩).2.2.2.1 ⟨rfl, by decide⟩).1,
   ((lifecycle_idempotent ⟨true, some 0, 1, []⟩).2.2.2.1 ⟨rfl, by decide⟩).2.2.2.1,
   (lifecycle_idempotent Service.fresh).2.1⟩


/-! ## Schedules -/

theorem exec_append (s : Sys) (l1 l2 : List Ev) :
    exec s (l1 ++ l2) = (exec s l1).bind (fun s1 => exec s1 l2) := by
  induction l1 generalizing s with
  | nil => rfl
  | cons e es ih =>
    simp only [List.cons_append, exec]
    cases step s e with
    | none => rfl
    | some s1 => exact ih s1

theorem idleRound_stays (s : Sys) (hpc : s.pc = Pc.pollCall) (hc : s.client_fd = -1)
    (hrun : s.svc.running = true) : exec s idleRound = some s := by
  cases s with
  | mk svc slot mh pc sfd cfd span sp log =>
    simp only at hpc hc hrun
    subst hpc hc
    simp [idleRound, exec, step, run, hrun]

theorem idleRounds_stay (k : Nat) (s : Sys) (hpc : s.pc = Pc.pollCall) (hc : s.client_fd = -1)
    (hrun : s.svc.running = true) : exec s (idleRounds k) = some s := by
  induction k with
  | zero => rfl
  | succ k ih =>
    rw [idleRounds, exec_append, idleRound_stays s hpc hc hrun]
    exact ih

theorem stop_steps_agree (s : Sys) (hidle : s.stopPc = StopPc.idle) (hpc : s.pc = Pc.done) :
    (s.svc.running = false →
      exec s [Ev.stopExchange] = some { s with svc := stop s.svc })
    ∧ (s.svc.running = true → s.svc.worker_thread.isSome = true →
      exec s [Ev.stopExchange, Ev.stopNotify, Ev.stopJoin]
        = some { s with svc := stop s.svc, log := s.log ++ [Act.notify] }) := by
  cases s with
  | mk svc slot mh pc sfd cfd span sp log =>
    simp only at hidle hpc
    subst hidle hpc
    constructor
    · intro hr
      simp only at hr
      simp [exec, step, stop, hr]
    · intro hr hw
      simp only at hr hw
      simp [exec, step, stop, notifyOne, hr, hw]

/-! ## The worker: teardown, shutdown, sessions -/

/-- C5 (the code departs from it): a worker that bound and listened on
descriptor 3, accepted client 5, read its rate byte and blocked waiting for a
frame; `stop()` clears the flag and notifies, the worker wakes, reads
`running == false` at line 133 and returns from `run()` at line 135. The
worker has terminated and was joined, nothing was transmitted, but
`close(3)` was never called and the socket path still exists: the clean-up of
lines 177-183 was skipped. -/
theorem teardown_skipped_when_stopped_while_waiting :
    ∃ s, exec (Sys.fresh 0)
        [Ev.startCall, Ev.socket 3, Ev.bind 0, Ev.listen 0, Ev.loadRunning, Ev.poll 1 false,
         Ev.accept 5 false, Ev.recv 1 10, Ev.loadRunning, Ev.lock, Ev.loadRunning, Ev.pred,
         Ev.block, Ev.stopExchange, Ev.stopNotify, Ev.relock, Ev.pred, Ev.loadRunning,
         Ev.stopJoin] = some s
      ∧ s.pc = Pc.done ∧ s.svc.running = false ∧ s.svc.worker_thread = none
      ∧ s.stopPc = StopPc.idle
      ∧ sentOn 5 s.log = []
      ∧ closeCount 3 s.log = 0
      ∧ pathExists s.log false = true :=
  ⟨_, rfl, rfl, rfl, rfl, rfl, rfl, rfl, rfl⟩

/-- C6 (the code departs from it): lost wake-up. The worker, holding the
mutex, evaluates the predicate of `cv.wait` at lines 130-131 while `running`
is still true and the slot is empty; before it blocks, `stop()` (which does
not take the mutex) clears the flag and calls `notify_one()` with no thread
blocked yet; then the worker blocks. In the state reached the worker is
blocked on the condition variable with `running == false`, `stop()` is blocked
in `join()`, and no step of the worker or of the lifecycle owner is enabled:
only a later `pushFrame` could wake the worker. -/
theorem stop_can_hang :
    ∃ s, exec (Sys.fresh 0)
        [Ev.startCall, Ev.socket 3, Ev.bind 0, Ev.listen 0, Ev.loadRunning, Ev.poll 1 false,
         Ev.accept 5 false, Ev.recv 1 10, Ev.loadRunning, Ev.lock, Ev.loadRunning, Ev.pred,
         Ev.stopExchange, Ev.stopNotify, Ev.block] = some s
      ∧ s.pc = Pc.waiting ∧ s.svc.running = false ∧ s.stopPc = StopPc.join
      ∧ s.slot.latest_frame = none
      ∧ ∀ e : Ev, (∀ f t, e ≠ Ev.push f t) → step s e = none := by
  refine ⟨_, rfl, rfl, rfl, rfl, rfl, ?_⟩
  intro e he
  cases e with
  | push f t => exact absurd rfl (he f t)
  | _ => rfl

/-- C8 (the code departs from it): the peer of client 5 closes the connection
without sending anything, so `recv` returns 0 and leaves the buffer as it was
(77 here). The test `>= 0` at line 112 passes: the buffer content becomes the
negotiated rate, the connection is not closed, the session enters the delivery
loop and the next pushed frame is handed to `send()` on that connection. -/
theorem rate_read_of_zero_bytes_enters_delivery :
    ∃ s, exec (Sys.fresh 0)
        [Ev.startCall, Ev.socket 3, Ev.bind 0, Ev.listen 0, Ev.loadRunning, Ev.poll 1 false,
         Ev.accept 5 false, Ev.recv 0 77, Ev.push ⟨1, 4⟩ 100, Ev.loadRunning, Ev.lock, Ev.take,
         Ev.send 4] = some s
      ∧ s.slot.output_fps = 77
      ∧ closeCount 5 s.log = 0
      ∧ sentOn 5 s.log = [⟨1, 4⟩]
      ∧ s.pc = Pc.innerCheck :=
  ⟨_, rfl, rfl, rfl, rfl, rfl⟩

/-- C10 (the code departs from it): accepted descriptors closed twice and
never. First run: `send` on client 5 fails, line 157 closes it, `stop()` clears
the flag before the accept loop re-reads it at line 76, and the clean-up of
line 180 closes descriptor 5 a second time. Second run: the same with a failed
`recv` (line 172, then line 180). Third run: `stop()` is observed at line 124
while the slot is empty and `run()` returns at line 126 with client 5 never
closed. -/
theorem client_closed_twice_or_never :
    (∃ s, exec (Sys.fresh 0)
        [Ev.startCall, Ev.socket 3, Ev.bind 0, Ev.listen 0, Ev.loadRunning, Ev.poll 1 false,
         Ev.accept 5 false, Ev.recv 1 10, Ev.push ⟨7, 4⟩ 100, Ev.loadRunning, Ev.lock, Ev.take,
         Ev.send (-1), Ev.stopExchange, Ev.loadRunning, Ev.cleanup] = some s
      ∧ s.pc = Pc.done ∧ closeCount 5 s.log = 2)
    ∧ (∃ s, exec (Sys.fresh 0)
        [Ev.startCall, Ev.socket 3, Ev.bind 0, Ev.listen 0, Ev.loadRunning, Ev.poll 1 false,
         Ev.accept 5 false, Ev.recv (-1) 0, Ev.stopExchange, Ev.loadRunning, Ev.cleanup] = some s
      ∧ s.pc = Pc.done ∧ closeCount 5 s.log = 2)
    ∧ (∃ s, exec (Sys.fresh 0)
        [Ev.startCall, Ev.socket 3, Ev.bind 0, Ev.listen 0, Ev.loadRunning, Ev.poll 1 false,
         Ev.accept 5 false, Ev.recv 1 10, Ev.loadRunning, Ev.stopExchange, Ev.lock,
         Ev.loadRunning] = some s
      ∧ s.pc = Pc.done ∧ closeCount 5 s.log = 0) :=
  ⟨⟨_, rfl, rfl, rfl⟩, ⟨_, rfl, rfl, rfl⟩, ⟨_, rfl, rfl, rfl⟩⟩


/-- C7: transmission failure is session-local. For every state in which the
worker is about to send a frame while the service is running, a failing
`send` closes the connection (once), releases the mutex, leaves the service
state (running flag included) untouched and brings the worker back to the
accept loop at `poll`; from there, after any number of idle poll rounds, the
next connection accepted has its rate byte read and stored as the negotiated
rate, replacing the previous one, and nothing is sent on it before that: the
only actions between the failure and the start of its delivery loop are the
accept and the rate assignment. -/
theorem send_failure_session_local (s : Sys) (k : Nat) (pr fd2 b : Int)
    (hpc : s.pc = Pc.sendCall) (hrun : s.svc.running = true)
    (hpr : pr ≠ -1 ∧ pr ≠ 0) (hfd : fd2 ≠ -1) :
    ∃ s1 s2, exec s [Ev.send (-1), Ev.loadRunning] = some s1
      ∧ s1.pc = Pc.pollCall ∧ s1.svc = s.svc ∧ s1.client_fd = -1 ∧ s1.mutexHeld = false
      ∧ s1.log = s.log ++ [Act.send s.client_fd s.span (-1), Act.close s.client_fd]
      ∧ exec s1 (idleRounds k ++ [Ev.poll pr false, Ev.accept fd2 false, Ev.recv 1 b]) = some s2
      ∧ s2.pc = Pc.innerCheck ∧ s2.svc = s.svc ∧ s2.client_fd = fd2
      ∧ s2.slot.output_fps = b
      ∧ s2.log = s1.log ++ [Act.accepted fd2, Act.setFps b] := by
  obtain ⟨hpr1, hpr0⟩ := hpr
  refine ⟨{ s with pc := Pc.pollCall, mutexHeld := false, client_fd := -1,
                    log := s.log ++ [Act.send s.client_fd s.span (-1), Act.close s.client_fd] },
          { s with pc := Pc.innerCheck, mutexHeld := false, client_fd := fd2,
                   slot := { s.slot with output_fps := b },
                   log := s.log ++ [Act.send s.client_fd s.span (-1), Act.close s.client_fd]
                     ++ [Act.accepted fd2, Act.setFps b] },
          ?_, rfl, rfl, rfl, rfl, rfl, ?_, rfl, rfl, rfl, rfl, rfl⟩
  · simp [exec, step, run, hpc, hrun]
  · have hidle := idleRounds_stay k
      { s with pc := Pc.pollCall, mutexHeld := false, client_fd := -1,
               log := s.log ++ [Act.send s.client_fd s.span (-1), Act.close s.client_fd] }
      rfl rfl hrun
    rw [exec_append, hidle]
    simp [exec, step, run, hpr1, hpr0, hfd]

/-- Witness for C7: a running service whose worker is about to send the frame
(7, 4) to client 5; the send fails, two idle rounds pass, client 6 connects
and asks for rate 20. -/
theorem send_failure_session_local_witness :
    ∃ s1 s2, exec { Sys.fresh 10 with svc := start Service.fresh, pc := Pc.sendCall,
                                       server_fd := 3, client_fd := 5, span := ⟨7, 4⟩,
                                       mutexHeld := true }
        [Ev.send (-1), Ev.loadRunning] = some s1
      ∧ s1.pc = Pc.pollCall ∧ s1.svc = start Service.fresh ∧ s1.client_fd = -1
      ∧ s1.mutexHeld = false
      ∧ s1.log = [] ++ [Act.send 5 ⟨7, 4⟩ (-1), Act.close 5]
      ∧ exec s1 (idleRounds 2 ++ [Ev.poll 1 false, Ev.accept 6 false, Ev.recv 1 20]) = some s2
      ∧ s2.pc = Pc.innerCheck ∧ s2.svc = start Service.fresh ∧ s2.client_fd = 6
      ∧ s2.slot.output_fps = 20
      ∧ s2.log = s1.log ++ [Act.accepted 6, Act.setFps 20] :=
  send_failure_session_local
    { Sys.fresh 10 with svc := start Service.fresh, pc := Pc.sendCall,
                        server_fd := 3, client_fd := 5, span := ⟨7, 4⟩, mutexHeld := true }
    2 1 6 20 rfl rfl (by decide) (by decide)


/-- C9 as stated fails: `start()` on a fresh object whose worker fails to
create the socket. The worker returns at line 40, but nothing clears the
running flag that `start()` set: the service state stays running and a later
`start()` changes nothing (no new worker). -/
theorem startup_failure_counterexample :
    ∃ s, exec (Sys.fresh 0) [Ev.startCall, Ev.socket (-1)] = some s
      ∧ s.pc = Pc.done ∧ s.svc.running = true
      ∧ step s Ev.startCall = some s :=
  ⟨_, rfl, rfl, rfl, rfl⟩

/-- C9 (amended): start-up failure ends the worker and leaves the running flag
set. For every `start()` on a stopped service whose worker fails to create the
socket, or creates descriptor `fd` and fails to bind, or binds and fails to
listen: the worker returns; the descriptor, if one was created, has been
closed once; the running flag stays true, so that a later `start()` is a
no-op; and `stop()` followed by `start()` creates a new worker. -/
theorem startup_failure_keeps_running (s : Sys) (fd r : Int)
    (hrun : s.svc.running = false) (hpc : s.pc = Pc.done) (hidle : s.stopPc = StopPc.idle)
    (hm : s.mutexHeld = false) (hfd : fd ≠ -1) (hr : r ≠ -1) :
    (∃ s1, exec s [Ev.startCall, Ev.socket (-1)] = some s1 ∧ AbortedStartup s s1 [])
    ∧ (∃ s1, exec s [Ev.startCall, Ev.socket fd, Ev.bind (-1)] = some s1
        ∧ AbortedStartup s s1 [Act.socketOk fd, Act.unlink, Act.close fd])
    ∧ (∃ s1, exec s [Ev.startCall, Ev.socket fd, Ev.bind r, Ev.listen (-1)] = some s1
        ∧ AbortedStartup s s1 [Act.socketOk fd, Act.unlink, Act.bindOk, Act.close fd]) := by
  cases s with
  | mk svc slot mh pc sfd cfd span sp log =>
    cases svc with
    | mk run wt n j =>
      simp only at hrun hpc hidle hm
      subst hrun hpc hidle hm
      cases wt <;>
      · refine ⟨⟨_, by simp [exec, step, run]; rfl, ?_⟩, ⟨_, by simp [exec, step, run, hfd]; rfl, ?_⟩,
          ⟨_, by simp [exec, step, run, hfd, hr]; rfl, ?_⟩⟩ <;>
        · refine ⟨rfl, by simp, rfl, by simp [start, joinWorker],
            by simp [step, run, start, joinWorker], ?_⟩
          simp [exec, step, run, start, joinWorker, notifyOne]

/-- Witness for C9: a freshly constructed object, descriptor 3, bind
returning 0. -/
theorem startup_failure_keeps_running_witness :
    ∃ s1, exec (Sys.fresh 0) [Ev.startCall, Ev.socket 3, Ev.bind 0, Ev.listen (-1)] = some s1
      ∧ AbortedStartup (Sys.fresh 0) s1 [Act.socketOk 3, Act.unlink, Act.bindOk, Act.close 3] :=
  (startup_failure_keeps_running (Sys.fresh 0) 3 0 rfl rfl rfl rfl (by decide) (by decide)).2.2

end SecondaryStream
